import Mathlib

/-!
A verification development for the Fear-and-Greed backtesting engine
(`backtester.py`): the strategy simulator `run_backtest`, the yearly
aggregator `calculate_yearly_metrics`, the rolling-origin runner
`run_multi_start_analysis` and the grid optimizer `optimize_thresholds`.

Modelling conventions:
* Dates are calendar days (the data layer works at day granularity), encoded
  as the number of days since 1970-01-01 (`Nat`).  The pandas expression
  `pd.to_datetime(date).dt.year` is embedded as `yearOfEpochDay`, the standard
  civil-calendar year-from-day-number computation, and
  `(d2 - d1).days` becomes plain subtraction of day numbers.
* Prices, balances and derived metrics use `ℚ` in place of IEEE floats; the
  code performs no rounding during simulation, so the exact arithmetic agrees
  with the source except for float representation error.  Python's
  `round(x, 2)` is embedded as `round2` (round to nearest hundredth).
* `int(row['fng_value'])` is an identity cast on the integer-valued sentiment
  column, so a point carries `fng : Int` directly.
* Python lists built by `append` become Lean lists built front-to-back.
-/

/-- Civil-calendar year of a day number (days since 1970-01-01), the
embedding of `pd.to_datetime(date).dt.year` for non-negative day numbers.
This is the standard days-from-civil inverse computation. -/
def yearOfEpochDay (z : Nat) : Nat :=
  let z2 := z + 719468
  let era := z2 / 146097
  let doe := z2 % 146097
  let yoe := (doe - doe / 1460 + doe / 36524 - doe / 146096) / 365
  let y := yoe + era * 400
  let doy := doe - (365 * yoe + yoe / 4 - yoe / 100)
  let mp := (5 * doy + 2) / 153
  if mp < 10 then y else y + 1

/-- Python `round(x, 2)`: round to the nearest multiple of 1/100. -/
def round2 (x : ℚ) : ℚ := (round (x * 100) : ℤ) / 100

/-- One row of the merged input series: `{date, price, fng_value}`. -/
structure Point where
  date : Nat
  price : ℚ
  fng : Int
deriving DecidableEq, Repr

/-- The simulator's portfolio state: `usd_balance` and `btc_balance`. -/
structure PState where
  usd : ℚ
  btc : ℚ
deriving DecidableEq, Repr

/-- Action tags: trades use BUY/SELL, daily snapshots use Buy/Sell/Hold;
both string families are represented by this one inductive. -/
inductive Act where
  | Buy
  | Sell
  | Hold
deriving DecidableEq, Repr

/-- One entry of the `trades` log built in `run_backtest`. -/
structure Trade where
  date : Nat
  action : Act
  price : ℚ
  fng : Int
  amount_usd : ℚ
  amount_btc : ℚ
deriving DecidableEq, Repr

/-- One entry of the `daily_stats` log built in `run_backtest`. -/
structure Snapshot where
  date : Nat
  price : ℚ
  fng_value : Int
  equity : ℚ
  btc_held : ℚ
  usd_balance : ℚ
  action : Act
deriving DecidableEq, Repr

/-- Result of one loop iteration of `run_backtest`: the updated balances,
the trade appended (if any) and the daily snapshot appended. -/
structure StepRes where
  state : PState
  trade : Option Trade
  snap : Snapshot
deriving DecidableEq, Repr

/-- One iteration of the `for index, row in df.iterrows()` loop of
`run_backtest` (lines 15-64): the buy branch, the sell branch, else hold;
then the snapshot with `equity = usd_balance + btc_balance * price`. -/
def stepDay (b s : Int) (st : PState) (p : Point) : StepRes :=
  if p.fng ≤ b ∧ 0 < st.usd then
    let btc_bought := st.usd / p.price
    { state := ⟨0, btc_bought⟩,
      trade := some ⟨p.date, .Buy, p.price, p.fng, st.usd, btc_bought⟩,
      snap := ⟨p.date, p.price, p.fng, 0 + btc_bought * p.price,
              btc_bought, 0, .Buy⟩ }
  else if s ≤ p.fng ∧ 0 < st.btc then
    let usd_received := st.btc * p.price
    { state := ⟨usd_received, 0⟩,
      trade := some ⟨p.date, .Sell, p.price, p.fng, usd_received, st.btc⟩,
      snap := ⟨p.date, p.price, p.fng, usd_received + 0 * p.price,
              0, usd_received, .Sell⟩ }
  else
    { state := st, trade := none,
      snap := ⟨p.date, p.price, p.fng, st.usd + st.btc * p.price,
              st.btc, st.usd, .Hold⟩ }

/-- The simulation loop: fold `stepDay` over the day list, collecting the
snapshot and trade logs in chronological order. -/
def runDays (b s : Int) : PState → List Point → List Snapshot × List Trade
  | _, [] => ([], [])
  | st, p :: rest =>
    let r := stepDay b s st p
    let tail := runDays b s r.state rest
    (r.snap :: tail.1, r.trade.elim tail.2 (· :: tail.2))

/-- Comparison by date, the key of `df.sort_values('date')`. -/
def dateLe (a b : Point) : Prop := a.date ≤ b.date

instance : DecidableRel dateLe := fun a b => Nat.decLe a.date b.date

instance : IsTotal Point dateLe := ⟨fun a b => Nat.le_total a.date b.date⟩

instance : IsTrans Point dateLe := ⟨fun _ _ _ h h' => Nat.le_trans h h'⟩

/-- `df.sort_values('date')` (line 13): sort the series by date ascending. -/
def sortByDate (df : List Point) : List Point := List.insertionSort dateLe df

/-- `run_backtest(df, initial_capital, buy_threshold, sell_threshold)`
(lines 3-69): sort by date, run the strategy loop from
`usd_balance = initial_capital, btc_balance = 0`, return
`(daily_stats, trades)`. -/
def run_backtest (df : List Point) (initial_capital : ℚ) (b s : Int) :
    List Snapshot × List Trade :=
  runDays b s ⟨initial_capital, 0⟩ (sortByDate df)

/-- Default row used to embed pandas `iloc` extraction totally; every use
below is guarded by the group being non-empty. -/
def defaultSnap : Snapshot := ⟨0, 0, 0, 0, 0, 0, .Hold⟩

/-- The ascending list of distinct calendar years of a snapshot table, as
produced by `stats_df.groupby('year')` on the derived year column (group
keys are sorted ascending, duplicates collapsed). -/
def yearsOfSnaps (snaps : List Snapshot) : List Nat :=
  List.insertionSort (· ≤ ·) ((snaps.map fun sn => yearOfEpochDay sn.date).dedup)

/-- One row of the table returned by `calculate_yearly_metrics`. -/
structure YearlyMetric where
  year : Nat
  startingEquity : ℚ
  endingEquity : ℚ
  profitLoss : ℚ
  roi : ℚ
  trades : Nat
deriving DecidableEq, Repr

/-- `calculate_yearly_metrics(stats_df)` (lines 71-97): derive the year
column, group by year (keys ascending, rows kept in table order), and for
each group compute start/end equity, profit, ROI and the non-Hold count.
The `round(_, 2)` calls of lines 90-93 are `round2`. -/
def calculate_yearly_metrics (snaps : List Snapshot) : List YearlyMetric :=
  (yearsOfSnaps snaps).map fun y =>
    let g := snaps.filter fun sn => yearOfEpochDay sn.date = y
    let start_equity := (g.headD defaultSnap).equity
    let end_equity := (g.getLastD defaultSnap).equity
    let roi := ((end_equity - start_equity) / start_equity) * 100
    { year := y,
      startingEquity := round2 start_equity,
      endingEquity := round2 end_equity,
      profitLoss := round2 (end_equity - start_equity),
      roi := round2 roi,
      trades := (g.filter fun sn => sn.action ≠ Act.Hold).length }

/-- The ascending list of distinct calendar years of an input series, as in
`sorted(df['year'].unique())` (line 104) and `df.groupby('year')`. -/
def yearsOfPoints (df : List Point) : List Nat :=
  List.insertionSort (· ≤ ·) ((df.map fun p => yearOfEpochDay p.date).dedup)

/-- One logical result row of `run_multi_start_analysis` (the dict built at
lines 132-144, minus the placeholder label column dropped at line 150; the
final transposition is presentation shape only). -/
structure OriginRow where
  startYear : Nat
  capital : ℚ
  benefit : ℚ
  annualProfit : ℚ
  totalRoi : ℚ
  annualRoi : ℚ
  numOps : Nat
  pctProfit : ℚ
  posOps : Nat
  negOps : Nat
  timeYears : ℚ
deriving DecidableEq, Repr

/-- The record built and appended at lines 132-144 of
`run_multi_start_analysis` (reached only when the `pos_ops` access of line
128 did not raise): `benefit = final_equity - initial_capital`, `total_roi`,
elapsed years as day difference over 365.25, guarded annualized metrics,
and the trade counters. -/
def mkOriginRowFields (y : Nat) (initial_capital : ℚ) (trades : List Trade)
    (first last : Snapshot) : OriginRow :=
  let final_equity := last.equity
  let benefit := final_equity - initial_capital
  let total_roi := (benefit / initial_capital) * 100
  let num_years := ((last.date : ℚ) - (first.date : ℚ)) / (1461 / 4)
  { startYear := y,
    capital := initial_capital,
    benefit := benefit,
    annualProfit := if 0 < num_years then benefit / num_years else benefit,
    totalRoi := total_roi,
    annualRoi := if 0 < num_years then total_roi / num_years else total_roi,
    numOps := trades.length,
    pctProfit := if 0 < trades.length then 100 else 0,
    posOps := (trades.filter fun t => t.action = Act.Sell).length,
    negOps := 0,
    timeYears := num_years }

/-- The metric block of lines 117-144, including its error path.  Line 128
computes `pos_ops = len(trades[trades['action'] == 'SELL'])`; when the run
recorded no trades, `run_backtest` returned `pd.DataFrame([])` — an empty
frame with no columns — so the `'action'` column access raises
`KeyError: 'action'` and no row is built.  `none` embeds that uncaught
exception; with at least one trade the column exists and the row of
`mkOriginRowFields` is produced. -/
def mkOriginRow (y : Nat) (initial_capital : ℚ) (trades : List Trade)
    (first last : Snapshot) : Option OriginRow :=
  if trades.isEmpty then none
  else some (mkOriginRowFields y initial_capital trades first last)

/-- The three possible outcomes of one iteration of the loop at lines
107-144: `continue`, append a row, or raise out of the whole call. -/
inductive LoopStep where
  | cont
  | push (r : OriginRow)
  | raise
deriving DecidableEq, Repr

/-- One iteration of the loop at lines 107-144: skip an empty subset
(line 109, `continue`), run a fresh backtest, skip an empty stats table
(line 114), otherwise build the result row from the first and last
snapshots — raising (`LoopStep.raise`) when line 128 hits the column-less
empty trades table. -/
def originStep (subset : List Point) (y : Nat) (initial_capital : ℚ)
    (b s : Int) : LoopStep :=
  if subset.isEmpty then .cont
  else
    let res := run_backtest subset initial_capital b s
    match res.1.head?, res.1.getLast? with
    | some first, some last =>
      match mkOriginRow y initial_capital res.2 first last with
      | none => .raise
      | some r => .push r
    | _, _ => .cont

/-- The loop of lines 107-144 over the candidate start years: an uncaught
exception in any iteration aborts the whole call (`none`); otherwise the
appended rows in year order. -/
def runOrigins (df : List Point) (initial_capital : ℚ) (b s : Int) :
    List Nat → Option (List OriginRow)
  | [] => some []
  | y :: ys =>
    match originStep (df.filter fun p => y ≤ yearOfEpochDay p.date) y
        initial_capital b s with
    | .raise => none
    | .cont => runOrigins df initial_capital b s ys
    | .push r => (runOrigins df initial_capital b s ys).map fun rest => r :: rest

/-- `run_multi_start_analysis(df, initial_capital, buy_threshold,
sell_threshold)` (lines 99-150): one independent simulation per distinct
start year, on the sub-series of points whose year is at least that start
year, each starting again from the full `initial_capital`.  The result is
`none` when the call raises `KeyError: 'action'` (line 128), which happens
exactly when some origin run records no trades. -/
def run_multi_start_analysis (df : List Point) (initial_capital : ℚ)
    (b s : Int) : Option (List OriginRow) :=
  runOrigins df initial_capital b s (yearsOfPoints df)

/-- The contract form of one rolling-origin row: a fresh simulation of the
year-suffix of the series from the full initial capital.  For every year
actually present in the series whose run records at least one trade, the
loop iteration `originStep` pushes exactly this row. -/
def originRowSpec (df : List Point) (initial_capital : ℚ) (b s : Int)
    (y : Nat) : OriginRow :=
  let subset := df.filter fun p => y ≤ yearOfEpochDay p.date
  let res := run_backtest subset initial_capital b s
  mkOriginRowFields y initial_capital res.2 (res.1.headD defaultSnap)
    (res.1.getLastD defaultSnap)

/-- `buy_ranges` (line 161). -/
def buy_ranges : List Int := [10, 20, 30, 40, 50, 60]

/-- `sell_ranges` (line 162). -/
def sell_ranges : List Int := [70, 80, 90, 95]

/-- The grid walked by the nested loops of lines 169-170: buy ascending
outer, sell ascending inner. -/
def gridPairs : List (Int × Int) :=
  buy_ranges.flatMap fun b => sell_ranges.map fun s => (b, s)

/-- Lines 171-173: run the simulator for one grid cell and return the total
ROI of the final snapshot, or `none` when the stats table is empty. -/
def roiOfRun (g : List Point) (initial_capital : ℚ) (bs : Int × Int) :
    Option ℚ :=
  ((run_backtest g initial_capital bs.1 bs.2).1.getLast?).map fun last =>
    ((last.equity - initial_capital) / initial_capital) * 100

/-- The total ROI of a grid cell on a non-empty slice (the value inside
`roiOfRun` whenever the simulation produced any snapshot). -/
def roiTotal (g : List Point) (initial_capital : ℚ) (bs : Int × Int) : ℚ :=
  (((run_backtest g initial_capital bs.1 bs.2).1.getLastD defaultSnap).equity
      - initial_capital) / initial_capital * 100

/-- The accumulator update of lines 171-177: `best_roi` starts at `-inf`
(encoded `none`, which any computed ROI beats) and is replaced exactly when
the new ROI is strictly greater. -/
def optStep (g : List Point) (initial_capital : ℚ)
    (acc : Option ℚ × Int × Int) (bs : Int × Int) : Option ℚ × Int × Int :=
  match roiOfRun g initial_capital bs with
  | none => acc
  | some roi =>
    match acc.1 with
    | none => (some roi, bs.1, bs.2)
    | some best => if best < roi then (some roi, bs.1, bs.2) else acc

/-- One row of the table returned by `optimize_thresholds`; `maxRoi` is
`none` exactly in the never-updated `-inf` case of the source. -/
structure OptRow where
  year : Nat
  bestBuy : Int
  bestSell : Int
  maxRoi : Option ℚ
deriving DecidableEq, Repr

/-- The group of points of `df` whose derived year is `y`, in table order:
one group of `df.groupby('year')`. -/
def yearSlice (df : List Point) (y : Nat) : List Point :=
  df.filter fun p => yearOfEpochDay p.date = y

/-- `optimize_thresholds(df, initial_capital)` (lines 152-186): for each
year group, fold the strict-improvement update over the fixed grid starting
from `(-inf, 50, 90)` and report the best pair with the rounded best ROI. -/
def optimize_thresholds (df : List Point) (initial_capital : ℚ) :
    List OptRow :=
  (yearsOfPoints df).map fun y =>
    let g := yearSlice df y
    let best := gridPairs.foldl (optStep g initial_capital) (none, 50, 90)
    { year := y, bestBuy := best.2.1, bestSell := best.2.2,
      maxRoi := best.1.map round2 }

/-- Default trade used to embed pandas `iloc` extraction totally. -/
def defaultTrade : Trade := ⟨0, .Hold, 0, 0, 0, 0⟩

/-- A caller-owned DataFrame of input points, modelled as its rows plus
whether the derived `year` column is materialized in it.  The column's
values are determined by the dates, so its presence flag captures the
caller-visible effect of `df['year'] = pd.to_datetime(df['date']).dt.year`. -/
structure PFrame where
  rows : List Point
  hasYearCol : Bool
deriving DecidableEq, Repr

/-- A caller-owned DataFrame of daily snapshots, with the same year-column
presence flag as `PFrame`. -/
structure SFrame where
  rows : List Snapshot
  hasYearCol : Bool
deriving DecidableEq, Repr

/-- `run_backtest` at the DataFrame boundary: line 13 rebinds the local name
to a sorted copy (`df = df.sort_values('date').copy()`), so the caller's
frame is returned unchanged. -/
def run_backtest_frame (df : PFrame) (initial_capital : ℚ) (b s : Int) :
    (List Snapshot × List Trade) × PFrame :=
  (run_backtest df.rows initial_capital b s, df)

/-- `calculate_yearly_metrics` at the DataFrame boundary: line 75 assigns
the derived year column into the caller's frame before grouping. -/
def calculate_yearly_metrics_frame (stats_df : SFrame) :
    List YearlyMetric × SFrame :=
  (calculate_yearly_metrics stats_df.rows, ⟨stats_df.rows, true⟩)

/-- `run_multi_start_analysis` at the DataFrame boundary: line 103 assigns
the derived year column into the caller's frame (before the loop runs, so
the caller sees the column even when the call later raises). -/
def run_multi_start_analysis_frame (df : PFrame) (initial_capital : ℚ)
    (b s : Int) : Option (List OriginRow) × PFrame :=
  (run_multi_start_analysis df.rows initial_capital b s, ⟨df.rows, true⟩)

/-- `optimize_thresholds` at the DataFrame boundary: line 157 assigns the
derived year column into the caller's frame. -/
def optimize_thresholds_frame (df : PFrame) (initial_capital : ℚ) :
    List OptRow × PFrame :=
  (optimize_thresholds df.rows initial_capital, ⟨df.rows, true⟩)

/-! ### Helper lemmas about the simulation loop -/

theorem runDays_length (b s : Int) :
    ∀ (l : List Point) (st : PState), ((runDays b s st l).1).length = l.length
  | [], _ => rfl
  | p :: rest, st => by
    simp [runDays, runDays_length b s rest]

theorem stepDay_snap_equity (b s : Int) (st : PState) (p : Point) :
    (stepDay b s st p).snap.equity =
      (stepDay b s st p).snap.usd_balance +
        (stepDay b s st p).snap.btc_held * (stepDay b s st p).snap.price := by
  unfold stepDay
  split
  · rfl
  · split
    · rfl
    · rfl

theorem runDays_equity (b s : Int) :
    ∀ (l : List Point) (st : PState),
      ∀ sn ∈ (runDays b s st l).1,
        sn.equity = sn.usd_balance + sn.btc_held * sn.price
  | [], _ => by simp [runDays]
  | p :: rest, st => by
    intro sn hsn
    simp only [runDays, List.mem_cons] at hsn
    rcases hsn with h | h
    · rw [h]
      exact stepDay_snap_equity b s st p
    · exact runDays_equity b s rest (stepDay b s st p).state sn h

/-! ### Claims C1 to C4 -/

/-- C1: `run_backtest` processes the points in ascending date order (it runs
the day loop on a date-sorted permutation of its input), and each day takes
exactly one of three mutually exclusive branches in fixed priority order:
buy when `sentiment ≤ buy_threshold` and `usd_balance > 0` (all-in
conversion at the current price, a BUY is recorded, balances become
`(0, usd/price)`); otherwise sell when `sentiment ≥ sell_threshold` and
`btc_balance > 0` (all-out conversion, a SELL is recorded, balances become
`(btc*price, 0)`); otherwise hold (no trade, state unchanged).  The buy
branch is checked first. -/
theorem claim_C1_branch_priority (series : List Point) (cap : ℚ) (b s : Int) :
    run_backtest series cap b s = runDays b s ⟨cap, 0⟩ (sortByDate series) ∧
    List.Sorted dateLe (sortByDate series) ∧
    List.Perm (sortByDate series) series ∧
    ∀ (st : PState) (p : Point),
      (p.fng ≤ b ∧ 0 < st.usd ∧
        stepDay b s st p =
          { state := ⟨0, st.usd / p.price⟩,
            trade := some ⟨p.date, .Buy, p.price, p.fng, st.usd, st.usd / p.price⟩,
            snap := ⟨p.date, p.price, p.fng, 0 + st.usd / p.price * p.price,
                    st.usd / p.price, 0, .Buy⟩ }) ∨
      (¬(p.fng ≤ b ∧ 0 < st.usd) ∧ s ≤ p.fng ∧ 0 < st.btc ∧
        stepDay b s st p =
          { state := ⟨st.btc * p.price, 0⟩,
            trade := some ⟨p.date, .Sell, p.price, p.fng, st.btc * p.price, st.btc⟩,
            snap := ⟨p.date, p.price, p.fng, st.btc * p.price + 0 * p.price,
                    0, st.btc * p.price, .Sell⟩ }) ∨
      (¬(p.fng ≤ b ∧ 0 < st.usd) ∧ ¬(s ≤ p.fng ∧ 0 < st.btc) ∧
        stepDay b s st p =
          { state := st, trade := none,
            snap := ⟨p.date, p.price, p.fng, st.usd + st.btc * p.price,
                    st.btc, st.usd, .Hold⟩ }) := by
  refine ⟨rfl, List.sorted_insertionSort dateLe series,
    List.perm_insertionSort dateLe series, fun st p => ?_⟩
  by_cases h1 : p.fng ≤ b ∧ 0 < st.usd
  · exact Or.inl ⟨h1.1, h1.2, by simp [stepDay, h1]⟩
  · by_cases h2 : s ≤ p.fng ∧ 0 < st.btc
    · exact Or.inr (Or.inl ⟨h1, h2.1, h2.2, by simp [stepDay, h1, h2]⟩)
    · exact Or.inr (Or.inr ⟨h1, h2, by simp [stepDay, h1, h2]⟩)

/-- C2: every daily snapshot satisfies the equity invariant
`equity = usd_balance + btc_held * price` exactly, and exactly one snapshot
is emitted per input point. -/
theorem claim_C2_equity_invariant (series : List Point) (cap : ℚ) (b s : Int) :
    ((run_backtest series cap b s).1).length = series.length ∧
    ∀ sn ∈ (run_backtest series cap b s).1,
      sn.equity = sn.usd_balance + sn.btc_held * sn.price := by
  constructor
  · rw [run_backtest, runDays_length]
    exact (List.perm_insertionSort dateLe series).length_eq
  · exact runDays_equity b s (sortByDate series) ⟨cap, 0⟩

/-- C3: the three-day scenario `[(d1,100,80),(d2,90,30),(d3,110,95)]` with
capital 1000 and thresholds 50/90 holds on day 1 with equity 1000, buys
1000/90 BTC on day 2 with equity still 1000, sells on day 3 for
`(1000/90)*110` dollars, logs exactly one BUY and one SELL, and ends with
equity 11000/9 (≈ 1222.22) and total ROI 200/9 % (≈ 22.22 %). -/
theorem claim_C3_scenario :
    (run_backtest [⟨0, 100, 80⟩, ⟨1, 90, 30⟩, ⟨2, 110, 95⟩] 1000 50 90).1.map
        (fun sn => sn.action) = [Act.Hold, Act.Buy, Act.Sell] ∧
    (run_backtest [⟨0, 100, 80⟩, ⟨1, 90, 30⟩, ⟨2, 110, 95⟩] 1000 50 90).1.map
        (fun sn => sn.equity) = [1000, 1000, 11000 / 9] ∧
    (run_backtest [⟨0, 100, 80⟩, ⟨1, 90, 30⟩, ⟨2, 110, 95⟩] 1000 50 90).1.map
        (fun sn => sn.btc_held) = [0, 1000 / 90, 0] ∧
    (run_backtest [⟨0, 100, 80⟩, ⟨1, 90, 30⟩, ⟨2, 110, 95⟩] 1000 50 90).1.map
        (fun sn => sn.usd_balance) = [1000, 0, 1000 / 90 * 110] ∧
    (run_backtest [⟨0, 100, 80⟩, ⟨1, 90, 30⟩, ⟨2, 110, 95⟩] 1000 50 90).2.map
        (fun t => t.action) = [Act.Buy, Act.Sell] ∧
    ((run_backtest [⟨0, 100, 80⟩, ⟨1, 90, 30⟩, ⟨2, 110, 95⟩] 1000 50 90).2.headD
        defaultTrade).amount_btc = 1000 / 90 ∧
    round2 (((run_backtest [⟨0, 100, 80⟩, ⟨1, 90, 30⟩, ⟨2, 110, 95⟩]
        1000 50 90).1.getLastD defaultSnap).equity) = 1222.22 ∧
    round2 ((((run_backtest [⟨0, 100, 80⟩, ⟨1, 90, 30⟩, ⟨2, 110, 95⟩]
        1000 50 90).1.getLastD defaultSnap).equity - 1000) / 1000 * 100)
      = 22.22 := by
  norm_num [run_backtest, sortByDate, List.insertionSort, List.orderedInsert,
    runDays, stepDay, dateLe, round2, round_eq]

/-- C4: the simulator on the empty series returns two empty sequences, and
the yearly aggregator on an empty snapshot table returns an empty sequence;
both are total functions. -/
theorem claim_C4_empty_inputs :
    run_backtest [] 1000 50 90 = ([], []) ∧
    calculate_yearly_metrics [] = [] :=
  ⟨rfl, rfl⟩

/-! ### More helper lemmas -/

theorem head?_eq_headD {α : Type _} (l : List α) (h : l ≠ []) (d : α) :
    l.head? = some (l.headD d) := by
  cases l with
  | nil => exact absurd rfl h
  | cons a t => rfl

theorem getLast?_eq_getLastD {α : Type _} (l : List α) (h : l ≠ []) (d : α) :
    l.getLast? = some (l.getLastD d) := by
  induction l with
  | nil => exact absurd rfl h
  | cons a t ih =>
    cases t with
    | nil => rfl
    | cons c t2 =>
      rw [List.getLast?_cons_cons]
      exact ih (by simp)

theorem run_backtest_stats_length (df : List Point) (cap : ℚ) (b s : Int) :
    ((run_backtest df cap b s).1).length = df.length := by
  rw [run_backtest, runDays_length]
  exact (List.perm_insertionSort dateLe df).length_eq

theorem run_backtest_stats_ne_nil (df : List Point) (cap : ℚ) (b s : Int)
    (h : df ≠ []) : (run_backtest df cap b s).1 ≠ [] := by
  intro hc
  apply h
  have := run_backtest_stats_length df cap b s
  rw [hc] at this
  exact List.length_eq_zero.mp this.symm

theorem mem_yearsOfPoints {df : List Point} {y : Nat} :
    y ∈ yearsOfPoints df ↔ ∃ p ∈ df, yearOfEpochDay p.date = y := by
  unfold yearsOfPoints
  rw [(List.perm_insertionSort (· ≤ ·) _).mem_iff, List.mem_dedup, List.mem_map]

theorem mem_yearsOfSnaps {snaps : List Snapshot} {y : Nat} :
    y ∈ yearsOfSnaps snaps ↔ ∃ sn ∈ snaps, yearOfEpochDay sn.date = y := by
  unfold yearsOfSnaps
  rw [(List.perm_insertionSort (· ≤ ·) _).mem_iff, List.mem_dedup, List.mem_map]

/-! ### Claim C9 -/

/-- C9: at the DataFrame boundary, the yearly aggregator, the rolling-origin
runner and the optimizer all hand the caller back its frame with the derived
year column materialized in it (an in-place mutation of caller-owned input),
and this differs from the frame passed in whenever the column was absent;
`run_backtest` alone returns the caller's frame unchanged, since it rebinds
its local name to a sorted copy. -/
theorem claim_C9_frame_effects :
    (∀ stats_df : SFrame,
        (calculate_yearly_metrics_frame stats_df).2 = ⟨stats_df.rows, true⟩) ∧
    (∀ (df : PFrame) (cap : ℚ) (b s : Int),
        (run_multi_start_analysis_frame df cap b s).2 = ⟨df.rows, true⟩) ∧
    (∀ (df : PFrame) (cap : ℚ),
        (optimize_thresholds_frame df cap).2 = ⟨df.rows, true⟩) ∧
    (∀ (df : PFrame) (cap : ℚ) (b s : Int),
        (run_backtest_frame df cap b s).2 = df) ∧
    (calculate_yearly_metrics_frame ⟨[], false⟩).2 ≠ ⟨[], false⟩ ∧
    (run_multi_start_analysis_frame ⟨[], false⟩ 1000 50 90).2 ≠ ⟨[], false⟩ ∧
    (optimize_thresholds_frame ⟨[], false⟩ 1000).2 ≠ ⟨[], false⟩ := by
  refine ⟨fun _ => rfl, fun _ _ _ _ => rfl, fun _ _ => rfl, fun _ _ _ _ => rfl,
    ?_, ?_, ?_⟩ <;> simp [calculate_yearly_metrics_frame,
    run_multi_start_analysis_frame, optimize_thresholds_frame]

/-! ### Claim C5 -/

/-- Every row of a successful rolling-origin run was pushed by some loop
iteration. -/
theorem runOrigins_mem (df : List Point) (cap : ℚ) (b s : Int) :
    ∀ (ys : List Nat) (rows : List OriginRow) (row : OriginRow),
      runOrigins df cap b s ys = some rows → row ∈ rows →
      ∃ y ∈ ys, originStep (df.filter fun p => y ≤ yearOfEpochDay p.date) y
        cap b s = LoopStep.push row
  | [], rows, row => by
    intro hr hm
    simp only [runOrigins, Option.some_inj] at hr
    subst hr
    exact absurd hm (List.not_mem_nil row)
  | y :: ys, rows, row => by
    intro hr hm
    simp only [runOrigins] at hr
    cases hstep : originStep (df.filter fun p => y ≤ yearOfEpochDay p.date) y
        cap b s with
    | raise =>
      rw [hstep] at hr
      exact absurd hr (by simp)
    | cont =>
      rw [hstep] at hr
      obtain ⟨y', hy', hs⟩ := runOrigins_mem df cap b s ys rows row hr hm
      exact ⟨y', List.mem_cons_of_mem y hy', hs⟩
    | push r =>
      rw [hstep] at hr
      have hr' : (runOrigins df cap b s ys).map (fun rest => r :: rest) =
          some rows := hr
      obtain ⟨rest, hrest, hcons⟩ := Option.map_eq_some'.mp hr'
      have hrows : rows = r :: rest := by rw [← hcons]
      subst hrows
      rcases List.mem_cons.mp hm with h | h
      · subst h
        exact ⟨y, List.mem_cons_self y ys, hstep⟩
      · obtain ⟨y', hy', hs⟩ := runOrigins_mem df cap b s ys rest row hrest h
        exact ⟨y', List.mem_cons_of_mem y hy', hs⟩

/-- C5: degenerate denominators do not propagate a division fault.  When a
year group's start equity is 0 the aggregator's ROI cell is the defined
fallback value 0 (the `ℚ` embedding of the unguarded `x / 0`, matching the
non-raising NaN/`inf` float semantics of the source's column arithmetic);
and when the elapsed time of an origin run is ≤ 0 years, every row the
runner returns reports the raw benefit as the annualized profit and the
total ROI as the annualized ROI, by the explicit guards at lines 123-124. -/
theorem claim_C5_zero_guards (snaps : List Snapshot) (y : Nat)
    (hy : y ∈ yearsOfSnaps snaps)
    (h0 : ((snaps.filter fun sn => yearOfEpochDay sn.date = y).headD
      defaultSnap).equity = 0)
    (df : List Point) (cap : ℚ) (b s : Int) (rows : List OriginRow)
    (row : OriginRow)
    (hrun : run_multi_start_analysis df cap b s = some rows)
    (hrow : row ∈ rows)
    (hle : row.timeYears ≤ 0) :
    (∃ yrow ∈ calculate_yearly_metrics snaps, yrow.year = y ∧ yrow.roi = 0) ∧
    (row.annualProfit = row.benefit ∧ row.annualRoi = row.totalRoi) := by
  constructor
  · refine ⟨_, List.mem_map_of_mem _ hy, rfl, ?_⟩
    simp only [h0, round2, sub_zero, div_zero, zero_mul, round_zero,
      Int.cast_zero, zero_div]
  · obtain ⟨y', hy', hstep⟩ :=
      runOrigins_mem df cap b s (yearsOfPoints df) rows row hrun hrow
    simp only [originStep] at hstep
    split at hstep
    · exact absurd hstep (by simp)
    · split at hstep
      · split at hstep
        · exact absurd hstep (by simp)
        · rw [LoopStep.push.injEq] at hstep
          subst hstep
          rename_i hmk
          simp only [mkOriginRow] at hmk
          split at hmk
          · exact absurd hmk (by simp)
          · rw [Option.some_inj] at hmk
            rw [← hmk] at hle ⊢
            simp only [mkOriginRowFields] at hle ⊢
            rw [if_neg (not_lt.mpr hle), if_neg (not_lt.mpr hle)]
            exact ⟨rfl, rfl⟩
      · exact absurd hstep (by simp)

/-- Concrete witness data for C5: a single all-zero snapshot (the run of a
zero initial capital) and a single-day origin run whose elapsed time is 0. -/
def snapsC5 : List Snapshot := [⟨0, 100, 50, 0, 0, 0, Act.Hold⟩]

/-- The single origin row produced by `run_multi_start_analysis` on the
one-day series `[(day 0, price 100, sentiment 10)]` with capital 1000: the
run buys on its only day (one trade, so line 128 does not raise), the
elapsed time is 0 years, and benefit and total ROI are 0. -/
def rowC5 : OriginRow := ⟨1970, 1000, 0, 0, 0, 0, 1, 100, 0, 0, 0⟩

theorem claim_C5_zero_guards_witness :
    (1970 ∈ yearsOfSnaps snapsC5 ∧
      ((snapsC5.filter fun sn => yearOfEpochDay sn.date = 1970).headD
        defaultSnap).equity = 0 ∧
      run_multi_start_analysis [⟨0, 100, 10⟩] 1000 50 90 = some [rowC5] ∧
      rowC5 ∈ [rowC5] ∧
      rowC5.timeYears ≤ 0) ∧
    ((∃ yrow ∈ calculate_yearly_metrics snapsC5, yrow.year = 1970 ∧
        yrow.roi = 0) ∧
      (rowC5.annualProfit = rowC5.benefit ∧ rowC5.annualRoi = rowC5.totalRoi)) := by
  have h1 : 1970 ∈ yearsOfSnaps snapsC5 := by decide
  have h2 : ((snapsC5.filter fun sn => yearOfEpochDay sn.date = 1970).headD
      defaultSnap).equity = 0 := by decide
  have hyears : yearsOfPoints [⟨0, 100, 10⟩] = [1970] := by decide
  have hsub : ([⟨0, 100, 10⟩] : List Point).filter
      (fun p => 1970 ≤ yearOfEpochDay p.date) = [⟨0, 100, 10⟩] := by decide
  have hbt : run_backtest [⟨0, 100, 10⟩] 1000 50 90 =
      ([⟨0, 100, 10, 1000, 10, 0, Act.Buy⟩],
        [⟨0, Act.Buy, 100, 10, 1000, 10⟩]) := by
    norm_num [run_backtest, sortByDate, List.insertionSort, List.orderedInsert,
      runDays, stepDay, dateLe]
  have hstep : originStep [⟨0, 100, 10⟩] 1970 1000 50 90 =
      LoopStep.push rowC5 := by
    simp only [originStep]
    rw [if_neg (by decide), hbt]
    norm_num [mkOriginRow, mkOriginRowFields, rowC5]
    decide
  have hrun : run_multi_start_analysis [⟨0, 100, 10⟩] 1000 50 90 =
      some [rowC5] := by
    rw [run_multi_start_analysis, hyears]
    simp only [runOrigins, hsub, hstep, Option.map_some']
  have h4 : rowC5.timeYears ≤ 0 := le_refl 0
  exact ⟨⟨h1, h2, hrun, List.mem_cons_self _ _, h4⟩,
    claim_C5_zero_guards snapsC5 1970 h1 h2 [⟨0, 100, 10⟩] 1000 50 90 [rowC5]
      rowC5 hrun (List.mem_cons_self _ _) h4⟩

/-! ### Claim C8 -/

/-- The steady-state exclusivity invariant on the portfolio balances:
exactly one of the two balances is zero. -/
def StateOK (st : PState) : Prop :=
  (st.usd = 0 ∧ st.btc ≠ 0) ∨ (st.usd ≠ 0 ∧ st.btc = 0)

/-- The exclusivity invariant on a snapshot's recorded balances. -/
def SnapOK (sn : Snapshot) : Prop :=
  (sn.usd_balance = 0 ∧ sn.btc_held ≠ 0) ∨ (sn.usd_balance ≠ 0 ∧ sn.btc_held = 0)

theorem stepDay_snap_balances (b s : Int) (st : PState) (p : Point) :
    (stepDay b s st p).snap.usd_balance = (stepDay b s st p).state.usd ∧
    (stepDay b s st p).snap.btc_held = (stepDay b s st p).state.btc := by
  unfold stepDay
  split
  · exact ⟨rfl, rfl⟩
  · split
    · exact ⟨rfl, rfl⟩
    · exact ⟨rfl, rfl⟩

theorem stepDay_state_ok (b s : Int) (st : PState) (p : Point)
    (hp : p.price ≠ 0) (h : StateOK st) : StateOK (stepDay b s st p).state := by
  by_cases h1 : p.fng ≤ b ∧ 0 < st.usd
  · simp only [stepDay, if_pos h1]
    exact Or.inl ⟨rfl, div_ne_zero (ne_of_gt h1.2) hp⟩
  · by_cases h2 : s ≤ p.fng ∧ 0 < st.btc
    · simp only [stepDay, if_neg h1, if_pos h2]
      exact Or.inr ⟨mul_ne_zero (ne_of_gt h2.2) hp, rfl⟩
    · simp only [stepDay, if_neg h1, if_neg h2]
      exact h

theorem runDays_all_ok (b s : Int) :
    ∀ (l : List Point) (st : PState), (∀ p ∈ l, p.price ≠ 0) → StateOK st →
      ∀ sn ∈ (runDays b s st l).1, SnapOK sn
  | [], _, _, _ => by simp [runDays]
  | p :: rest, st, hp, hst => by
    intro sn hsn
    have hok : StateOK (stepDay b s st p).state :=
      stepDay_state_ok b s st p (hp p (List.mem_cons_self p rest)) hst
    simp only [runDays, List.mem_cons] at hsn
    rcases hsn with h | h
    · subst h
      have hb := stepDay_snap_balances b s st p
      unfold SnapOK
      rw [hb.1, hb.2]
      exact hok
    · exact runDays_all_ok b s rest (stepDay b s st p).state
        (fun q hq => hp q (List.mem_cons_of_mem p hq)) hok sn h

theorem runDays_phase (b s : Int) (cap : ℚ) :
    ∀ l : List Point, (∀ p ∈ l, p.price ≠ 0) →
      ∃ l1 l2, (runDays b s ⟨cap, 0⟩ l).1 = l1 ++ l2 ∧
        (∀ sn ∈ l1, sn.action = Act.Hold ∧ sn.usd_balance = cap ∧
          sn.btc_held = 0) ∧
        (∀ sn ∈ l2, SnapOK sn)
  | [] => fun _ => ⟨[], [], rfl, by simp, by simp⟩
  | p :: rest => fun hp => by
    by_cases h1 : p.fng ≤ b ∧ 0 < (⟨cap, 0⟩ : PState).usd
    · refine ⟨[], (runDays b s ⟨cap, 0⟩ (p :: rest)).1, rfl, by simp, ?_⟩
      intro sn hsn
      have hok : StateOK (stepDay b s ⟨cap, 0⟩ p).state := by
        simp only [stepDay, if_pos h1]
        exact Or.inl ⟨rfl,
          div_ne_zero (ne_of_gt h1.2) (hp p (List.mem_cons_self p rest))⟩
      simp only [runDays, List.mem_cons] at hsn
      rcases hsn with h | h
      · subst h
        have hb := stepDay_snap_balances b s ⟨cap, 0⟩ p
        unfold SnapOK
        rw [hb.1, hb.2]
        exact hok
      · exact runDays_all_ok b s rest (stepDay b s ⟨cap, 0⟩ p).state
          (fun q hq => hp q (List.mem_cons_of_mem p hq)) hok sn h
    · have h2 : ¬(s ≤ p.fng ∧ 0 < (⟨cap, 0⟩ : PState).btc) := by
        rintro ⟨-, hbtc⟩
        exact lt_irrefl (0 : ℚ) hbtc
      obtain ⟨l1, l2, heq, hl1, hl2⟩ :=
        runDays_phase b s cap rest (fun q hq => hp q (List.mem_cons_of_mem p hq))
      have hstep : stepDay b s ⟨cap, 0⟩ p =
          { state := ⟨cap, 0⟩, trade := none,
            snap := ⟨p.date, p.price, p.fng, cap + 0 * p.price, 0, cap,
              Act.Hold⟩ } := by
        simp only [stepDay, if_neg h1, if_neg h2]
      refine ⟨⟨p.date, p.price, p.fng, cap + 0 * p.price, 0, cap, Act.Hold⟩ :: l1,
        l2, ?_, ?_, hl2⟩
      · simp only [runDays, hstep]
        rw [heq, List.cons_append]
      · intro sn hsn
        rcases List.mem_cons.mp hsn with h | h
        · subst h
          exact ⟨rfl, rfl, rfl⟩
        · exact hl1 sn h

/-- C8 (amended: all prices non-zero): from the first recorded trade on,
every snapshot satisfies `usd_balance == 0 XOR btc_held == 0`, and a
snapshot with both balances zero can only occur when the initial capital is
zero.  The amendment is forced: with a zero price a SELL liquidates the
whole position for `btc * 0 = 0` dollars, leaving both balances zero (see
the counterexample). -/
theorem claim_C8_exclusivity_amended (series : List Point) (cap : ℚ)
    (b s : Int) (hp : ∀ p ∈ series, p.price ≠ 0) :
    (∀ i j : Fin ((run_backtest series cap b s).1.length),
        (j : ℕ) ≤ (i : ℕ) →
        ((run_backtest series cap b s).1.get j).action ≠ Act.Hold →
        Xor' (((run_backtest series cap b s).1.get i).usd_balance = 0)
          (((run_backtest series cap b s).1.get i).btc_held = 0)) ∧
    (∀ sn ∈ (run_backtest series cap b s).1,
        sn.usd_balance = 0 → sn.btc_held = 0 → cap = 0) := by
  have hp' : ∀ p ∈ sortByDate series, p.price ≠ 0 := fun p h =>
    hp p ((List.perm_insertionSort dateLe series).subset h)
  obtain ⟨l1, l2, heq, hl1, hl2⟩ := runDays_phase b s cap (sortByDate series) hp'
  have heq' : (run_backtest series cap b s).1 = l1 ++ l2 := heq
  constructor
  · intro i j hji hact
    rw [List.get_of_eq heq' j] at hact
    rw [List.get_of_eq heq' i]
    have hjl : ¬ (j : ℕ) < l1.length := by
      intro hlt
      apply hact
      rw [List.get_eq_getElem]
      simp only [Fin.coe_cast]
      rw [List.getElem_append_left hlt]
      exact (hl1 _ (List.getElem_mem _)).1
    have hil : l1.length ≤ (i : ℕ) := le_trans (not_lt.mp hjl) hji
    have hmem : (l1 ++ l2).get (Fin.cast (by rw [heq']) i) ∈ l2 := by
      rw [List.get_eq_getElem]
      simp only [Fin.coe_cast]
      rw [List.getElem_append_right hil]
      exact List.getElem_mem _
    rcases hl2 _ hmem with ⟨ha, hb⟩ | ⟨ha, hb⟩
    · exact Or.inl ⟨ha, fun hc => hb hc⟩
    · exact Or.inr ⟨hb, fun hc => ha hc⟩
  · intro sn hsn h0u h0b
    rw [heq', List.mem_append] at hsn
    rcases hsn with h | h
    · have := (hl1 sn h).2.1
      rw [h0u] at this
      exact this.symm
    · rcases hl2 sn h with ⟨ha, hb⟩ | ⟨ha, hb⟩
      · exact absurd h0b hb
      · exact absurd h0u ha

/-- C8, counterexample to the unrestricted claim: on
`[(day 0, price 100, fng 10), (day 1, price 0, fng 95)]` with capital 1000
and thresholds 50/90 the strategy buys on day 0 and sells on day 1 at price
0, producing a post-trade snapshot whose balances are both zero although
the initial capital is 1000 ≠ 0, so `usd_balance == 0 XOR btc_held == 0`
fails after the first trade. -/
theorem claim_C8_counterexample :
    ((run_backtest [⟨0, 100, 10⟩, ⟨1, 0, 95⟩] 1000 50 90).1.map
        fun sn => sn.action) = [Act.Buy, Act.Sell] ∧
    ((run_backtest [⟨0, 100, 10⟩, ⟨1, 0, 95⟩] 1000 50 90).1.getLastD
        defaultSnap).usd_balance = 0 ∧
    ((run_backtest [⟨0, 100, 10⟩, ⟨1, 0, 95⟩] 1000 50 90).1.getLastD
        defaultSnap).btc_held = 0 ∧
    ¬ Xor' (((run_backtest [⟨0, 100, 10⟩, ⟨1, 0, 95⟩] 1000 50 90).1.getLastD
          defaultSnap).usd_balance = 0)
        (((run_backtest [⟨0, 100, 10⟩, ⟨1, 0, 95⟩] 1000 50 90).1.getLastD
          defaultSnap).btc_held = 0) ∧
    (1000 : ℚ) ≠ 0 := by
  norm_num [run_backtest, sortByDate, List.insertionSort, List.orderedInsert,
    runDays, stepDay, dateLe, Xor']

theorem claim_C8_exclusivity_amended_witness :
    (∀ p ∈ ([⟨0, 100, 10⟩, ⟨1, 200, 95⟩] : List Point), p.price ≠ 0) ∧
    ((∀ i j : Fin ((run_backtest [⟨0, 100, 10⟩, ⟨1, 200, 95⟩] 500 50 90).1.length),
        (j : ℕ) ≤ (i : ℕ) →
        ((run_backtest [⟨0, 100, 10⟩, ⟨1, 200, 95⟩] 500 50 90).1.get j).action ≠ Act.Hold →
        Xor' (((run_backtest [⟨0, 100, 10⟩, ⟨1, 200, 95⟩] 500 50 90).1.get i).usd_balance = 0)
          (((run_backtest [⟨0, 100, 10⟩, ⟨1, 200, 95⟩] 500 50 90).1.get i).btc_held = 0)) ∧
      (∀ sn ∈ (run_backtest [⟨0, 100, 10⟩, ⟨1, 200, 95⟩] 500 50 90).1,
          sn.usd_balance = 0 → sn.btc_held = 0 → (500 : ℚ) = 0)) := by
  have hp : ∀ p ∈ ([⟨0, 100, 10⟩, ⟨1, 200, 95⟩] : List Point), p.price ≠ 0 := by
    intro p hp
    rcases List.mem_cons.mp hp with h | h
    · subst h
      norm_num
    · rcases List.mem_cons.mp h with h' | h'
      · subst h'
        norm_num
      · exact absurd h' (List.not_mem_nil p)
  exact ⟨hp, claim_C8_exclusivity_amended [⟨0, 100, 10⟩, ⟨1, 200, 95⟩] 500 50 90 hp⟩

/-! ### Claim C10 -/

theorem stepDay_trade_product (b s : Int) (st : PState) (p : Point)
    (hp : p.price ≠ 0) (t : Trade) (ht : (stepDay b s st p).trade = some t) :
    t.amount_usd = t.amount_btc * t.price := by
  by_cases h1 : p.fng ≤ b ∧ 0 < st.usd
  · simp only [stepDay, if_pos h1, Option.some_inj] at ht
    subst ht
    exact (div_mul_cancel₀ st.usd hp).symm
  · by_cases h2 : s ≤ p.fng ∧ 0 < st.btc
    · simp only [stepDay, if_neg h1, if_pos h2, Option.some_inj] at ht
      subst ht
      rfl
    · simp only [stepDay, if_neg h1, if_neg h2] at ht
      exact absurd ht (by simp)

theorem stepDay_trade_fields (b s : Int) (st : PState) (p : Point) (t : Trade)
    (ht : (stepDay b s st p).trade = some t) :
    t.price = p.price ∧ t.fng = p.fng ∧ t.date = p.date ∧
    (t.action = Act.Buy →
      t.amount_usd = st.usd ∧ t.amount_btc = st.usd / p.price) ∧
    (t.action = Act.Sell →
      t.amount_btc = st.btc ∧ t.amount_usd = st.btc * p.price) := by
  by_cases h1 : p.fng ≤ b ∧ 0 < st.usd
  · simp only [stepDay, if_pos h1, Option.some_inj] at ht
    subst ht
    exact ⟨rfl, rfl, rfl, fun _ => ⟨rfl, rfl⟩, fun hc => Act.noConfusion hc⟩
  · by_cases h2 : s ≤ p.fng ∧ 0 < st.btc
    · simp only [stepDay, if_neg h1, if_pos h2, Option.some_inj] at ht
      subst ht
      exact ⟨rfl, rfl, rfl, fun hc => Act.noConfusion hc, fun _ => ⟨rfl, rfl⟩⟩
    · simp only [stepDay, if_neg h1, if_neg h2] at ht
      exact absurd ht (by simp)

theorem runDays_trades (b s : Int) :
    ∀ (l : List Point) (st : PState), (∀ p ∈ l, p.price ≠ 0) →
      ∀ t ∈ (runDays b s st l).2, t.amount_usd = t.amount_btc * t.price
  | [], _, _ => by simp [runDays]
  | p :: rest, st, hp => by
    intro t ht
    simp only [runDays] at ht
    cases hc : (stepDay b s st p).trade with
    | none =>
      rw [hc] at ht
      exact runDays_trades b s rest (stepDay b s st p).state
        (fun q hq => hp q (List.mem_cons_of_mem p hq)) t ht
    | some tr =>
      rw [hc] at ht
      have ht' : t ∈ tr :: (runDays b s (stepDay b s st p).state rest).2 := ht
      rcases List.mem_cons.mp ht' with h | h
      · subst h
        exact stepDay_trade_product b s st p
          (hp p (List.mem_cons_self p rest)) t hc
      · exact runDays_trades b s rest (stepDay b s st p).state
          (fun q hq => hp q (List.mem_cons_of_mem p hq)) t h

/-- C10 (amended: all prices non-zero): every recorded trade satisfies
`amount_usd = amount_btc * price` at its own price, and the trade emitted
by a day step carries that day's price, sentiment and date, with a BUY
converting the whole pre-trade USD balance (`amount_usd = usd_balance`,
`amount_btc = usd_balance / price`) and a SELL converting the whole
pre-trade asset balance (`amount_btc = btc_balance`,
`amount_usd = btc_balance * price`).  The amendment is forced: a BUY at
price 0 records `amount_usd = usd_balance ≠ 0` while
`amount_btc * price = 0` (see the counterexample). -/
theorem claim_C10_trade_consistency_amended (series : List Point) (cap : ℚ)
    (b s : Int) (hp : ∀ p ∈ series, p.price ≠ 0) :
    (∀ t ∈ (run_backtest series cap b s).2,
        t.amount_usd = t.amount_btc * t.price) ∧
    (∀ (st : PState) (p : Point) (t : Trade),
        (stepDay b s st p).trade = some t →
        t.price = p.price ∧ t.fng = p.fng ∧ t.date = p.date ∧
        (t.action = Act.Buy →
          t.amount_usd = st.usd ∧ t.amount_btc = st.usd / p.price) ∧
        (t.action = Act.Sell →
          t.amount_btc = st.btc ∧ t.amount_usd = st.btc * p.price)) := by
  refine ⟨?_, fun st p t ht => stepDay_trade_fields b s st p t ht⟩
  intro t ht
  exact runDays_trades b s (sortByDate series) ⟨cap, 0⟩
    (fun p h => hp p ((List.perm_insertionSort dateLe series).subset h)) t ht

/-- C10, counterexample to the unrestricted claim: a BUY at price 0 (series
`[(day 0, price 0, fng 10)]`, capital 1000) records `amount_usd = 1000` and
`amount_btc * price = 0`; the recorded amounts do not satisfy
`amount_usd == amount_btc * price`.  (In the embedding `1000 / 0 = 0`; the
source's float division yields `inf`, and `inf * 0` is NaN — the claimed
equation fails under either semantics.) -/
theorem claim_C10_counterexample :
    ((run_backtest [⟨0, 0, 10⟩] 1000 50 90).2.map
        fun t => (t.action, t.amount_usd, t.amount_btc, t.price)) =
      [(Act.Buy, 1000, 0, 0)] ∧
    ((run_backtest [⟨0, 0, 10⟩] 1000 50 90).2.headD defaultTrade).amount_usd ≠
      ((run_backtest [⟨0, 0, 10⟩] 1000 50 90).2.headD defaultTrade).amount_btc *
        ((run_backtest [⟨0, 0, 10⟩] 1000 50 90).2.headD defaultTrade).price := by
  norm_num [run_backtest, sortByDate, List.insertionSort, List.orderedInsert,
    runDays, stepDay, dateLe, defaultTrade]

theorem claim_C10_trade_consistency_amended_witness :
    (∀ p ∈ ([⟨0, 100, 20⟩, ⟨1, 50, 95⟩] : List Point), p.price ≠ 0) ∧
    ((∀ t ∈ (run_backtest [⟨0, 100, 20⟩, ⟨1, 50, 95⟩] 300 50 90).2,
        t.amount_usd = t.amount_btc * t.price) ∧
      (∀ (st : PState) (p : Point) (t : Trade),
          (stepDay 50 90 st p).trade = some t →
          t.price = p.price ∧ t.fng = p.fng ∧ t.date = p.date ∧
          (t.action = Act.Buy →
            t.amount_usd = st.usd ∧ t.amount_btc = st.usd / p.price) ∧
          (t.action = Act.Sell →
            t.amount_btc = st.btc ∧ t.amount_usd = st.btc * p.price))) := by
  have hp : ∀ p ∈ ([⟨0, 100, 20⟩, ⟨1, 50, 95⟩] : List Point), p.price ≠ 0 := by
    intro p hmem
    rcases List.mem_cons.mp hmem with h | h
    · subst h
      norm_num
    · rcases List.mem_cons.mp h with h' | h'
      · subst h'
        norm_num
      · exact absurd h' (List.not_mem_nil p)
  exact ⟨hp, claim_C10_trade_consistency_amended
    [⟨0, 100, 20⟩, ⟨1, 50, 95⟩] 300 50 90 hp⟩

/-! ### Claim C7 -/

theorem originStep_eq_push (df : List Point) (cap : ℚ) (b s : Int) (y : Nat)
    (hy : y ∈ yearsOfPoints df)
    (htr : (run_backtest (df.filter fun p => y ≤ yearOfEpochDay p.date)
      cap b s).2 ≠ []) :
    originStep (df.filter fun p => y ≤ yearOfEpochDay p.date) y cap b s =
      LoopStep.push (originRowSpec df cap b s y) := by
  obtain ⟨p, hpmem, hpy⟩ := mem_yearsOfPoints.mp hy
  have hpf : p ∈ df.filter fun q => y ≤ yearOfEpochDay q.date := by
    rw [List.mem_filter]
    exact ⟨hpmem, by simp [hpy]⟩
  have hne : (df.filter fun q => y ≤ yearOfEpochDay q.date) ≠ [] :=
    List.ne_nil_of_mem hpf
  have hstats :
      (run_backtest (df.filter fun q => y ≤ yearOfEpochDay q.date) cap b s).1 ≠ [] :=
    run_backtest_stats_ne_nil _ cap b s hne
  simp only [originStep]
  rw [if_neg (by simpa [List.isEmpty_iff] using hne)]
  rw [head?_eq_headD _ hstats defaultSnap, getLast?_eq_getLastD _ hstats defaultSnap]
  simp only [mkOriginRow]
  rw [if_neg (by simpa [List.isEmpty_iff] using htr)]
  rfl

theorem runOrigins_eq_map (df : List Point) (cap : ℚ) (b s : Int) :
    ∀ ys : List Nat,
      (∀ y ∈ ys, originStep (df.filter fun p => y ≤ yearOfEpochDay p.date) y
        cap b s = LoopStep.push (originRowSpec df cap b s y)) →
      runOrigins df cap b s ys = some (ys.map (originRowSpec df cap b s))
  | [], _ => rfl
  | y :: ys, h => by
    have hy := h y (List.mem_cons_self y ys)
    have ih := runOrigins_eq_map df cap b s ys
      fun q hq => h q (List.mem_cons_of_mem y hq)
    simp only [runOrigins, hy, ih, Option.map_some', List.map_cons]

/-- C7 (amended: every origin run records at least one trade): under that
proviso the rolling-origin runner returns exactly one row per distinct
calendar year of the input, the year list being ascending and
duplicate-free, and the row for origin year `y` is exactly the result of a
fresh simulation from the full initial capital on the sub-series of points
whose year is at least `y` (`originRowSpec`).  The proviso is forced: a
no-trade origin run makes line 128 access the `action` column of the
column-less empty trades table, raising `KeyError` instead of returning
rows (see the counterexample). -/
theorem claim_C7_rolling_origin_amended (df : List Point) (cap : ℚ)
    (b s : Int)
    (htr : ∀ y ∈ yearsOfPoints df,
      (run_backtest (df.filter fun p => y ≤ yearOfEpochDay p.date)
        cap b s).2 ≠ []) :
    run_multi_start_analysis df cap b s =
      some ((yearsOfPoints df).map (originRowSpec df cap b s)) ∧
    List.Sorted (· ≤ ·) (yearsOfPoints df) ∧
    (yearsOfPoints df).Nodup ∧
    (∀ y, y ∈ yearsOfPoints df ↔ ∃ p ∈ df, yearOfEpochDay p.date = y) := by
  refine ⟨?_, List.sorted_insertionSort _ _,
    ((List.perm_insertionSort _ _).nodup_iff).mpr (List.nodup_dedup _),
    fun y => mem_yearsOfPoints⟩
  rw [run_multi_start_analysis]
  exact runOrigins_eq_map df cap b s (yearsOfPoints df)
    fun y hy => originStep_eq_push df cap b s y hy (htr y hy)

/-- C7, counterexample to the unrestricted claim: on the one-point series
`[(day 0, price 100, fng 80)]` with capital 1000 and thresholds 50/90 the
single origin run holds on its only day, its trades table is the
column-less `pd.DataFrame([])`, and line 128 raises `KeyError: 'action'`
(`none` in the embedding): the runner yields no rows although one distinct
year is present, refuting "exactly one row per distinct origin year". -/
theorem claim_C7_counterexample :
    run_multi_start_analysis [⟨0, 100, 80⟩] 1000 50 90 = none ∧
    yearsOfPoints [⟨0, 100, 80⟩] = [1970] := by
  have hyears : yearsOfPoints [⟨0, 100, 80⟩] = [1970] := by decide
  have hsub : ([⟨0, 100, 80⟩] : List Point).filter
      (fun p => 1970 ≤ yearOfEpochDay p.date) = [⟨0, 100, 80⟩] := by decide
  have hbt : run_backtest [⟨0, 100, 80⟩] 1000 50 90 =
      ([⟨0, 100, 80, 1000, 0, 1000, Act.Hold⟩], []) := by
    norm_num [run_backtest, sortByDate, List.insertionSort, List.orderedInsert,
      runDays, stepDay, dateLe]
  have hstep : originStep [⟨0, 100, 80⟩] 1970 1000 50 90 = LoopStep.raise := by
    simp only [originStep]
    rw [if_neg (by decide), hbt]
    norm_num [mkOriginRow]
  refine ⟨?_, hyears⟩
  rw [run_multi_start_analysis, hyears]
  simp only [runOrigins, hsub, hstep]

/-- Witness data for C7: two years, each origin run buying on its first
day, so no origin run has an empty trades table. -/
def dfC7 : List Point := [⟨0, 100, 10⟩, ⟨730, 50, 20⟩]

theorem claim_C7_rolling_origin_amended_witness :
    (∀ y ∈ yearsOfPoints dfC7,
      (run_backtest (dfC7.filter fun p => y ≤ yearOfEpochDay p.date)
        1000 50 90).2 ≠ []) ∧
    (run_multi_start_analysis dfC7 1000 50 90 =
      some ((yearsOfPoints dfC7).map (originRowSpec dfC7 1000 50 90)) ∧
    List.Sorted (· ≤ ·) (yearsOfPoints dfC7) ∧
    (yearsOfPoints dfC7).Nodup ∧
    (∀ y, y ∈ yearsOfPoints dfC7 ↔ ∃ p ∈ dfC7, yearOfEpochDay p.date = y)) := by
  have htr : ∀ y ∈ yearsOfPoints dfC7,
      (run_backtest (dfC7.filter fun p => y ≤ yearOfEpochDay p.date)
        1000 50 90).2 ≠ [] := by
    intro y hy
    have hy2 : y = 1970 ∨ y = 1972 := by
      rw [show yearsOfPoints dfC7 = [1970, 1972] from by decide] at hy
      simpa using hy
    rcases hy2 with rfl | rfl
    · rw [show dfC7.filter (fun p => 1970 ≤ yearOfEpochDay p.date) = dfC7
        from by decide]
      norm_num [dfC7, run_backtest, sortByDate, List.insertionSort,
        List.orderedInsert, runDays, stepDay, dateLe]
    · rw [show dfC7.filter (fun p => 1972 ≤ yearOfEpochDay p.date) =
        [⟨730, 50, 20⟩] from by decide]
      norm_num [run_backtest, sortByDate, List.insertionSort,
        List.orderedInsert, runDays, stepDay, dateLe]
  exact ⟨htr, claim_C7_rolling_origin_amended dfC7 1000 50 90 htr⟩

/-! ### Claim C6 -/

theorem roiOfRun_eq_total (g : List Point) (cap : ℚ) (bs : Int × Int)
    (hg : g ≠ []) : roiOfRun g cap bs = some (roiTotal g cap bs) := by
  have hne := run_backtest_stats_ne_nil g cap bs.1 bs.2 hg
  rw [roiOfRun, getLast?_eq_getLastD _ hne defaultSnap, Option.map_some']
  rfl

/-- Proof-side totalization of `optStep` on a slice whose simulations all
produce a last snapshot: the accumulator carries the ROI value directly. -/
def bestStep (g : List Point) (cap : ℚ) (acc : ℚ × (Int × Int))
    (bs : Int × Int) : ℚ × (Int × Int) :=
  if acc.1 < roiTotal g cap bs then (roiTotal g cap bs, bs) else acc

theorem optFold_eq_bestFold (g : List Point) (cap : ℚ) :
    ∀ (l : List (Int × Int)) (m : ℚ) (pr : Int × Int),
      (∀ bs ∈ l, roiOfRun g cap bs = some (roiTotal g cap bs)) →
      l.foldl (optStep g cap) (some m, pr.1, pr.2) =
        (some (l.foldl (bestStep g cap) (m, pr)).1,
          (l.foldl (bestStep g cap) (m, pr)).2.1,
          (l.foldl (bestStep g cap) (m, pr)).2.2)
  | [], m, pr, _ => rfl
  | x :: t, m, pr, h => by
    rw [List.foldl_cons, List.foldl_cons]
    have hx := h x (List.mem_cons_self x t)
    have ih := optFold_eq_bestFold g cap t
    by_cases hlt : m < roiTotal g cap x
    · rw [show optStep g cap (some m, pr.1, pr.2) x =
          (some (roiTotal g cap x), x.1, x.2) from by simp [optStep, hx, hlt]]
      rw [show bestStep g cap (m, pr) x = (roiTotal g cap x, x) from by
        simp [bestStep, hlt]]
      exact ih (roiTotal g cap x) x fun q hq => h q (List.mem_cons_of_mem x hq)
    · rw [show optStep g cap (some m, pr.1, pr.2) x = (some m, pr.1, pr.2) from by
        simp [optStep, hx, hlt]]
      rw [show bestStep g cap (m, pr) x = (m, pr) from by simp [bestStep, hlt]]
      exact ih m pr fun q hq => h q (List.mem_cons_of_mem x hq)

theorem optFold_first (g : List Point) (cap : ℚ) (x : Int × Int)
    (t : List (Int × Int)) (hx : roiOfRun g cap x = some (roiTotal g cap x)) :
    (x :: t).foldl (optStep g cap) (none, 50, 90) =
      t.foldl (optStep g cap) (some (roiTotal g cap x), x.1, x.2) := by
  rw [List.foldl_cons]
  congr 1
  simp [optStep, hx]

theorem bestFold_spec (g : List Point) (cap : ℚ) :
    ∀ (t : List (Int × Int)) (m : ℚ) (pr : Int × Int),
      (t.foldl (bestStep g cap) (m, pr) = (m, pr) ∧
        ∀ q ∈ t, roiTotal g cap q ≤ m) ∨
      (roiTotal g cap (t.foldl (bestStep g cap) (m, pr)).2 =
          (t.foldl (bestStep g cap) (m, pr)).1 ∧
        m < (t.foldl (bestStep g cap) (m, pr)).1 ∧
        ∃ t1 t2, t = t1 ++ (t.foldl (bestStep g cap) (m, pr)).2 :: t2 ∧
          (∀ q ∈ t1, roiTotal g cap q <
            (t.foldl (bestStep g cap) (m, pr)).1) ∧
          (∀ q ∈ t2, roiTotal g cap q ≤
            (t.foldl (bestStep g cap) (m, pr)).1))
  | [], m, pr => Or.inl ⟨rfl, by simp⟩
  | x :: t, m, pr => by
    rw [List.foldl_cons]
    by_cases hlt : m < roiTotal g cap x
    · rw [show bestStep g cap (m, pr) x = (roiTotal g cap x, x) from by
        simp [bestStep, hlt]]
      rcases bestFold_spec g cap t (roiTotal g cap x) x with
        ⟨heq, hall⟩ | ⟨hval, hm, t1, t2, hsplit, hbef, haft⟩
      · rw [heq]
        exact Or.inr ⟨rfl, hlt, [], t, rfl, by simp, hall⟩
      · refine Or.inr ⟨hval, lt_trans hlt hm, x :: t1, t2, ?_, ?_, haft⟩
        · rw [List.cons_append, ← hsplit]
        · intro q hq
          rcases List.mem_cons.mp hq with h | h
          · subst h
            exact hm
          · exact hbef q h
    · rw [show bestStep g cap (m, pr) x = (m, pr) from by simp [bestStep, hlt]]
      rcases bestFold_spec g cap t m pr with
        ⟨heq, hall⟩ | ⟨hval, hm, t1, t2, hsplit, hbef, haft⟩
      · refine Or.inl ⟨heq, ?_⟩
        intro q hq
        rcases List.mem_cons.mp hq with h | h
        · subst h
          exact not_lt.mp hlt
        · exact hall q h
      · refine Or.inr ⟨hval, hm, x :: t1, t2, ?_, ?_, haft⟩
        · rw [List.cons_append, ← hsplit]
        · intro q hq
          rcases List.mem_cons.mp hq with h | h
          · subst h
            exact lt_of_le_of_lt (not_lt.mp hlt) hm
          · exact hbef q h

/-- C6 (amended: the reported ROI is the grid maximum rounded to two
decimals): for every year present in the input the optimizer evaluates the
simulator on all 24 cells of the fixed grid `{10,20,30,40,50,60} ×
{70,80,90,95}` over that year's slice (each cell yields a defined total
ROI), and the returned row carries the pair with the strictly greatest ROI,
ties kept at the first-seen pair in buy-ascending-outer, sell-ascending-
inner iteration order; its `Max ROI (%)` cell is that maximum ROI rounded
to two decimals (`round(_, 2)`, line 183) — the rounding is the only
deviation from the claim as stated (see the counterexample). -/
theorem claim_C6_grid_optimizer_amended (df : List Point) (cap : ℚ) (y : Nat)
    (hy : y ∈ yearsOfPoints df) :
    gridPairs.length = 24 ∧
    (optimize_thresholds df cap).length = (yearsOfPoints df).length ∧
    ∃ row ∈ optimize_thresholds df cap, row.year = y ∧
      (∀ q ∈ gridPairs, roiOfRun (yearSlice df y) cap q =
        some (roiTotal (yearSlice df y) cap q)) ∧
      (∀ q ∈ gridPairs, roiTotal (yearSlice df y) cap q ≤
        roiTotal (yearSlice df y) cap (row.bestBuy, row.bestSell)) ∧
      (∃ g1 g2, gridPairs = g1 ++ (row.bestBuy, row.bestSell) :: g2 ∧
        ∀ q ∈ g1, roiTotal (yearSlice df y) cap q <
          roiTotal (yearSlice df y) cap (row.bestBuy, row.bestSell)) ∧
      row.maxRoi = some (round2
        (roiTotal (yearSlice df y) cap (row.bestBuy, row.bestSell))) := by
  obtain ⟨p, hpmem, hpy⟩ := mem_yearsOfPoints.mp hy
  have hg : yearSlice df y ≠ [] := by
    apply List.ne_nil_of_mem (a := p)
    rw [yearSlice, List.mem_filter]
    exact ⟨hpmem, by simp [hpy]⟩
  have hsome : ∀ q ∈ gridPairs, roiOfRun (yearSlice df y) cap q =
      some (roiTotal (yearSlice df y) cap q) :=
    fun q _ => roiOfRun_eq_total _ cap q hg
  refine ⟨rfl, by rw [optimize_thresholds]; exact List.length_map _ _, ?_⟩
  obtain ⟨x0, gt, hxg⟩ : ∃ x0 gt, gridPairs = x0 :: gt := ⟨(10, 70), _, rfl⟩
  obtain ⟨M, pbest, hR⟩ : ∃ M pbest,
      gt.foldl (bestStep (yearSlice df y) cap)
        (roiTotal (yearSlice df y) cap x0, x0) = (M, pbest) := ⟨_, _, rfl⟩
  have hbest : gridPairs.foldl (optStep (yearSlice df y) cap) (none, 50, 90) =
      (some M, pbest.1, pbest.2) := by
    rw [hxg, optFold_first _ cap x0 gt
        (hsome x0 (by rw [hxg]; exact List.mem_cons_self x0 gt)),
      optFold_eq_bestFold _ cap gt (roiTotal (yearSlice df y) cap x0) x0
        (fun q hq => hsome q (by rw [hxg]; exact List.mem_cons_of_mem x0 hq)),
      hR]
  have hspec := bestFold_spec (yearSlice df y) cap gt
    (roiTotal (yearSlice df y) cap x0) x0
  rw [hR] at hspec
  simp only [Prod.mk.injEq] at hspec
  simp only [optimize_thresholds]
  refine ⟨_, List.mem_map_of_mem _ hy, rfl, hsome, ?_⟩
  simp only [hbest, Option.map_some', Prod.mk.eta]
  rcases hspec with ⟨⟨hM, hp0⟩, hall⟩ | ⟨hval, hm, t1, t2, hsplit, hbef, haft⟩
  · subst hM
    subst hp0
    refine ⟨?_, ⟨[], gt, by rw [hxg, List.nil_append], by simp⟩, rfl⟩
    intro q hq
    rw [hxg] at hq
    rcases List.mem_cons.mp hq with h | h
    · subst h
      exact le_refl _
    · exact hall q h
  · refine ⟨?_, ⟨x0 :: t1, t2, by rw [hxg, hsplit, List.cons_append], ?_⟩, ?_⟩
    · intro q hq
      rw [hxg] at hq
      rw [hval]
      rcases List.mem_cons.mp hq with h | h
      · subst h
        exact le_of_lt hm
      · rw [hsplit] at h
        rcases List.mem_append.mp h with h' | h'
        · exact le_of_lt (hbef q h')
        · rcases List.mem_cons.mp h' with h'' | h''
          · subst h''
            rw [hval]
          · exact haft q h''
    · intro q hq
      rw [hval]
      rcases List.mem_cons.mp hq with h | h
      · subst h
        exact hm
      · exact hbef q h
    · rw [hval]

theorem claim_C6_grid_optimizer_amended_witness :
    (1970 ∈ yearsOfPoints [⟨0, 90, 30⟩]) ∧
    (gridPairs.length = 24 ∧
      (optimize_thresholds [⟨0, 90, 30⟩] 1000).length =
        (yearsOfPoints [⟨0, 90, 30⟩]).length ∧
      ∃ row ∈ optimize_thresholds [⟨0, 90, 30⟩] 1000, row.year = 1970 ∧
        (∀ q ∈ gridPairs, roiOfRun (yearSlice [⟨0, 90, 30⟩] 1970) 1000 q =
          some (roiTotal (yearSlice [⟨0, 90, 30⟩] 1970) 1000 q)) ∧
        (∀ q ∈ gridPairs, roiTotal (yearSlice [⟨0, 90, 30⟩] 1970) 1000 q ≤
          roiTotal (yearSlice [⟨0, 90, 30⟩] 1970) 1000
            (row.bestBuy, row.bestSell)) ∧
        (∃ g1 g2, gridPairs = g1 ++ (row.bestBuy, row.bestSell) :: g2 ∧
          ∀ q ∈ g1, roiTotal (yearSlice [⟨0, 90, 30⟩] 1970) 1000 q <
            roiTotal (yearSlice [⟨0, 90, 30⟩] 1970) 1000
              (row.bestBuy, row.bestSell)) ∧
        row.maxRoi = some (round2 (roiTotal (yearSlice [⟨0, 90, 30⟩] 1970) 1000
          (row.bestBuy, row.bestSell)))) :=
  ⟨by decide, claim_C6_grid_optimizer_amended [⟨0, 90, 30⟩] 1000 1970 (by decide)⟩

set_option maxHeartbeats 4000000 in
/-- C6, counterexample to the unrestricted claim: on the two-day series
`[(day 0, price 90, fng 30), (day 1, price 100, fng 95)]` with capital 1000
the best grid cell is `(30, 70)` (first seen among the sixteen tied cells
with `buy ≥ 30`) with exact total ROI 100/9 % = 11.111… %, but the returned
`Max ROI (%)` cell is the rounded 11.11; the returned ROI does not equal
the maximum ROI over the 24 pairs. -/
theorem claim_C6_counterexample :
    optimize_thresholds [⟨0, 90, 30⟩, ⟨1, 100, 95⟩] 1000 =
      [⟨1970, 30, 70, some (1111 / 100)⟩] ∧
    (30, 70) ∈ gridPairs ∧
    roiTotal (yearSlice [⟨0, 90, 30⟩, ⟨1, 100, 95⟩] 1970) 1000 (30, 70) =
      100 / 9 ∧
    ¬ (1111 / 100 : ℚ) = 100 / 9 := by
  refine ⟨?_, by decide, ?_, by norm_num⟩
  · norm_num [optimize_thresholds, yearsOfPoints, yearOfEpochDay, yearSlice,
      gridPairs, buy_ranges, sell_ranges, optStep, roiOfRun, roiTotal,
      run_backtest, runDays, stepDay, sortByDate, List.insertionSort,
      List.orderedInsert, dateLe, round2, round_eq, defaultSnap,
      List.foldl_cons, List.foldl_nil, List.flatMap_cons, List.flatMap_nil]
  · norm_num [roiTotal, yearSlice, yearOfEpochDay, run_backtest, runDays,
      stepDay, sortByDate, List.insertionSort, List.orderedInsert, dateLe,
      defaultSnap]
